import Mathlib

/-!
Verification of the obsidian-mcp-tools-web protocol server core.

This file gives a shallow embedding of the parts of the source that carry
the behavioural contracts under scrutiny:

* `OAuthTokenManager` (packages/mcp-server/src/shared/oauth.ts): the token
  cache, `getToken` and `fetchToken`.  Network I/O is modelled by passing
  the outcome of the (single possible) fetch of a call as a `FetchResult`
  oracle argument; `Date.now()` becomes an explicit `now : Int` in
  milliseconds.  The manager state carries, besides the real `cachedToken`
  field of the class, a ghost counter `fetchCount` that instruments how
  many network fetches have been performed, so that "performs zero / exactly
  one network fetch" becomes provable arithmetic.
* the Express authentication middleware `authenticateApiKey` and its
  credential extraction chain (the HTTP server entry point), with
  JavaScript truthiness (`||` fallback, `if (API_KEY)`) modelled exactly.
* the authentication-token resolution of `makeRequest`
  (packages/mcp-server/src/shared/makeRequest.ts).
* `ObsidianMcpServer` (features/core): the session registry `transports`
  modelled as an association list with JavaScript `Map` semantics
  (`set` = replace-or-append, `delete` = remove the entry, `get` = lookup),
  `handleSSEConnection`, the `onclose`/`onerror`/shutdown deregistration,
  and `handlePostMessage`.
-/

namespace ObsidianMcp

/-! ## OAuth token manager (shared/oauth.ts) -/

/-- A cached bearer token with absolute expiry in ms, mirroring the
`CachedToken` interface (`token`, `expiresAt`). -/
structure CachedToken where
  token : String
  expiresAt : Int
  deriving DecidableEq, Repr

/-- State of an `OAuthTokenManager`: the real field `cachedToken` of the
class, plus a ghost counter of network fetches performed (not present in
the source; it instruments each execution of the `fetch` call inside
`fetchToken` so that fetch-counting claims can be stated). -/
structure OAuthMgrState where
  cachedToken : Option CachedToken
  fetchCount : Nat
  deriving DecidableEq, Repr

/-- Outcome of the network round trip performed by `fetchToken`, passed in
as an oracle: a well-formed success body (`access_token`, `expires_in`
seconds), a non-success HTTP status with its body text, a network error, or
a malformed response body (`response.json()` rejecting). -/
inductive FetchResult where
  | ok (accessToken : String) (expiresIn : Int)
  | httpError (status : Nat) (body : String)
  | networkError (msg : String)
  | malformed (msg : String)
  deriving DecidableEq, Repr

/-- Embedding of `OAuthTokenManager.fetchToken`: performs the network call
(ghost counter +1 in every branch, since the request is issued before any
outcome is known), throws on `!response.ok` with a message carrying the
upstream status and body, propagates network/parse errors, and on success
caches `⟨access_token, Date.now() + expires_in * 1000⟩` and returns the
token. -/
def fetchToken (now : Int) (r : FetchResult) (st : OAuthMgrState) :
    Except String String × OAuthMgrState :=
  match r with
  | .ok tok expiresIn =>
      (.ok tok, ⟨some ⟨tok, now + expiresIn * 1000⟩, st.fetchCount + 1⟩)
  | .httpError status body =>
      (.error ("OAuth token request failed (" ++ toString status ++ "): " ++ body),
        ⟨st.cachedToken, st.fetchCount + 1⟩)
  | .networkError msg => (.error msg, ⟨st.cachedToken, st.fetchCount + 1⟩)
  | .malformed msg => (.error msg, ⟨st.cachedToken, st.fetchCount + 1⟩)

/-- The `catch` block of `getToken`: wraps any `fetchToken` failure in
`Error("Failed to fetch OAuth token: " + message)`. -/
def wrapTokenFetch (now : Int) (r : FetchResult) (st : OAuthMgrState) :
    Except String String × OAuthMgrState :=
  match fetchToken now r st with
  | (.ok tok, st2) => (.ok tok, st2)
  | (.error msg, st2) => (.error ("Failed to fetch OAuth token: " ++ msg), st2)

/-- Embedding of `OAuthTokenManager.getToken`: return the cached token if
`Date.now() < cachedToken.expiresAt - 60000` (the 60-second buffer), else
fetch a new one. -/
def getToken (now : Int) (r : FetchResult) (st : OAuthMgrState) :
    Except String String × OAuthMgrState :=
  match st.cachedToken with
  | some c =>
      if now < c.expiresAt - 60000 then (.ok c.token, st)
      else wrapTokenFetch now r st
  | none => wrapTokenFetch now r st

/-- The guard of the cached-return path of `getToken`: the manager holds a token
that is still valid at `now` (with the 60 s buffer). -/
def cacheValid (now : Int) (st : OAuthMgrState) : Bool :=
  match st.cachedToken with
  | some c => decide (now < c.expiresAt - 60000)
  | none => false

/-- Embedding of `OAuthTokenManager.clearCache`. -/
def clearCache (st : OAuthMgrState) : OAuthMgrState :=
  ⟨none, st.fetchCount⟩

theorem getToken_of_cacheValid (now : Int) (r : FetchResult) (st : OAuthMgrState)
    (c : CachedToken) (hc : st.cachedToken = some c)
    (hv : now < c.expiresAt - 60000) :
    getToken now r st = (.ok c.token, st) := by
  simp [getToken, hc, hv]

theorem getToken_of_not_valid (now : Int) (r : FetchResult) (st : OAuthMgrState)
    (h : cacheValid now st = false) :
    getToken now r st = wrapTokenFetch now r st := by
  unfold getToken cacheValid at *
  cases hc : st.cachedToken with
  | none => simp
  | some c =>
      simp only [hc, decide_eq_false_iff_not] at h
      simp [h]

theorem wrapTokenFetch_fetchCount (now : Int) (r : FetchResult) (st : OAuthMgrState) :
    (wrapTokenFetch now r st).2.fetchCount = st.fetchCount + 1 := by
  cases r <;> simp [wrapTokenFetch, fetchToken]

theorem wrapTokenFetch_ok (now : Int) (tok : String) (expiresIn : Int)
    (st : OAuthMgrState) :
    wrapTokenFetch now (.ok tok expiresIn) st =
      (.ok tok, ⟨some ⟨tok, now + expiresIn * 1000⟩, st.fetchCount + 1⟩) := by
  simp [wrapTokenFetch, fetchToken]

theorem wrapTokenFetch_not_ok (now : Int) (r : FetchResult) (st : OAuthMgrState)
    (h : ∀ t e, r ≠ FetchResult.ok t e) :
    ∃ msg, wrapTokenFetch now r st =
      (.error ("Failed to fetch OAuth token: " ++ msg),
        ⟨st.cachedToken, st.fetchCount + 1⟩) := by
  cases r with
  | ok t e => exact absurd rfl (h t e)
  | httpError s b =>
      exact ⟨"OAuth token request failed (" ++ toString s ++ "): " ++ b,
        by simp [wrapTokenFetch, fetchToken]⟩
  | networkError m => exact ⟨m, by simp [wrapTokenFetch, fetchToken]⟩
  | malformed m => exact ⟨m, by simp [wrapTokenFetch, fetchToken]⟩

/-- After any successful `getToken`, the cache holds exactly the returned
token. -/
theorem getToken_ok_cache (now : Int) (r : FetchResult) (st st' : OAuthMgrState)
    (t : String) (h : getToken now r st = (.ok t, st')) :
    ∃ c : CachedToken, st'.cachedToken = some c ∧ c.token = t := by
  cases hc : st.cachedToken with
  | some c =>
      by_cases hv : now < c.expiresAt - 60000
      · rw [getToken_of_cacheValid now r st c hc hv] at h
        injection h with h1 h2
        injection h1 with h1
        exact ⟨c, h2 ▸ hc, h1⟩
      · have hnv : cacheValid now st = false := by simp [cacheValid, hc, hv]
        rw [getToken_of_not_valid now r st hnv] at h
        cases r with
        | ok tok e =>
            rw [wrapTokenFetch_ok] at h
            injection h with h1 h2
            injection h1 with h1
            exact ⟨⟨tok, now + e * 1000⟩, by rw [← h2], h1⟩
        | httpError s b => simp [wrapTokenFetch, fetchToken] at h
        | networkError m => simp [wrapTokenFetch, fetchToken] at h
        | malformed m => simp [wrapTokenFetch, fetchToken] at h
  | none =>
      have hnv : cacheValid now st = false := by simp [cacheValid, hc]
      rw [getToken_of_not_valid now r st hnv] at h
      cases r with
      | ok tok e =>
          rw [wrapTokenFetch_ok] at h
          injection h with h1 h2
          injection h1 with h1
          exact ⟨⟨tok, now + e * 1000⟩, by rw [← h2], h1⟩
      | httpError s b => simp [wrapTokenFetch, fetchToken] at h
      | networkError m => simp [wrapTokenFetch, fetchToken] at h
      | malformed m => simp [wrapTokenFetch, fetchToken] at h

/-- If the cache is invalid at `now` and the fetch outcome is not a success,
the cached token is unchanged by `getToken`. -/
theorem getToken_cachedToken_of_not_ok (now : Int) (r : FetchResult)
    (st : OAuthMgrState) (h : ∀ t e, r ≠ FetchResult.ok t e) :
    (getToken now r st).2.cachedToken = st.cachedToken := by
  by_cases hv : cacheValid now st = true
  · obtain ⟨c, hc, hlt⟩ : ∃ c, st.cachedToken = some c ∧ now < c.expiresAt - 60000 := by
      unfold cacheValid at hv
      cases hc : st.cachedToken with
      | none => rw [hc] at hv; exact absurd hv (by simp)
      | some c => rw [hc] at hv; exact ⟨c, rfl, by simpa using hv⟩
    rw [getToken_of_cacheValid now r st c hc hlt]
  · rw [getToken_of_not_valid now r st (by simpa using hv)]
    cases r with
    | ok t e => exact absurd rfl (h t e)
    | httpError s b => simp [wrapTokenFetch, fetchToken]
    | networkError m => simp [wrapTokenFetch, fetchToken]
    | malformed m => simp [wrapTokenFetch, fetchToken]

/-- C3: a second `getToken()` call made while `now < expiry - 60s` returns
the token the first successful call produced, with the manager state (and
hence the fetch count) untouched; a call at or after `expiry - 60s`
performs exactly one new fetch and, on success, stores
`expiry = now + expires_in * 1000`. -/
theorem getToken_caching_window (st0 st1 : OAuthMgrState) (now1 now2 : Int)
    (r1 r2 : FetchResult) (t1 : String) (c : CachedToken) :
    (getToken now1 r1 st0 = (.ok t1, st1) → st1.cachedToken = some c →
       now2 < c.expiresAt - 60000 →
       getToken now2 r2 st1 = (.ok t1, st1))
    ∧ (st1.cachedToken = some c → ¬ now2 < c.expiresAt - 60000 →
         (getToken now2 r2 st1).2.fetchCount = st1.fetchCount + 1
         ∧ ∀ tok e, r2 = FetchResult.ok tok e →
             getToken now2 r2 st1 =
               (.ok tok, ⟨some ⟨tok, now2 + e * 1000⟩, st1.fetchCount + 1⟩)) := by
  constructor
  · intro h1 hc hlt
    obtain ⟨c', hc', ht⟩ := getToken_ok_cache now1 r1 st0 st1 t1 h1
    rw [hc] at hc'
    injection hc' with hc'
    rw [getToken_of_cacheValid now2 r2 st1 c hc hlt, ← ht, hc']
  · intro hc hge
    have hnv : cacheValid now2 st1 = false := by simp [cacheValid, hc, hge]
    rw [getToken_of_not_valid now2 r2 st1 hnv]
    refine ⟨wrapTokenFetch_fetchCount now2 r2 st1, ?_⟩
    intro tok e hr
    rw [hr, wrapTokenFetch_ok]

/-- Witness for `getToken_caching_window` at a concrete run: a first fetch
at time 0 with `expires_in = 3600` caches until 3600000 ms; a second call
at 10000 ms returns the cached token with no state change even though the
oracle would report an HTTP error. -/
theorem getToken_caching_window_witness :
    getToken 10000 (.httpError 500 "boom") ⟨some ⟨"tok", 3600000⟩, 1⟩ =
      (.ok "tok", ⟨some ⟨"tok", 3600000⟩, 1⟩) :=
  (getToken_caching_window ⟨none, 0⟩ ⟨some ⟨"tok", 3600000⟩, 1⟩ 0 10000
      (.ok "tok" 3600) (.httpError 500 "boom") "tok" ⟨"tok", 3600000⟩).1
    rfl rfl (by decide)

/-- C4: when `getToken()` actually fetches (invalid cache) and the fetch
fails, the call returns the wrapped error -- for an HTTP failure the
message carries the upstream status and body -- and the cached token is
exactly what it was before; moreover the cache changes only when the fetch
succeeded. -/
theorem getToken_failure_frame (st : OAuthMgrState) (now : Int) (r : FetchResult) :
    (cacheValid now st = false → (∀ t e, r ≠ FetchResult.ok t e) →
       (∃ msg, getToken now r st =
          (.error ("Failed to fetch OAuth token: " ++ msg),
            ⟨st.cachedToken, st.fetchCount + 1⟩))
       ∧ (∀ s b, r = FetchResult.httpError s b →
            getToken now r st =
              (.error ("Failed to fetch OAuth token: " ++
                 ("OAuth token request failed (" ++ toString s ++ "): " ++ b)),
                ⟨st.cachedToken, st.fetchCount + 1⟩)))
    ∧ ((getToken now r st).2.cachedToken ≠ st.cachedToken →
         ∃ t e, r = FetchResult.ok t e) := by
  constructor
  · intro hnv hne
    rw [getToken_of_not_valid now r st hnv]
    refine ⟨wrapTokenFetch_not_ok now r st hne, ?_⟩
    intro s b hr
    rw [hr]
    simp [wrapTokenFetch, fetchToken]
  · intro hch
    by_contra hno
    push_neg at hno
    exact hch (getToken_cachedToken_of_not_ok now r st fun t e h => hno t e h)


/-- Witness for `getToken_failure_frame`: with an empty cache and the token
endpoint answering 503, `getToken` fails with the status and body in the
message and the cache stays empty. -/
theorem getToken_failure_frame_witness :
    getToken 0 (.httpError 503 "down") ⟨none, 5⟩ =
      (.error ("Failed to fetch OAuth token: " ++
         ("OAuth token request failed (" ++ toString 503 ++ "): " ++ "down")),
        ⟨none, 6⟩) :=
  ((getToken_failure_frame ⟨none, 5⟩ 0 (.httpError 503 "down")).1 rfl
      (fun _ _ h => nomatch h)).2 503 "down" rfl

/-! ## Credential extraction and the authentication middleware
(the HTTP entry point `src/index.ts` of the server package, dual-mode
variant) -/

/-- Characters matched by the JavaScript regex class whitespace escape
(ASCII part): space, tab, line feed, carriage return, vertical tab, form
feed. -/
def isJsSpace (c : Char) : Bool :=
  c = ' ' || c = '\t' || c = '\n' || c = '\r' || c.toNat = 11 || c.toNat = 12

/-- Character-list worker for `String.replace` with the anchored
case-insensitive pattern matching a literal `Bearer` followed by one or
more whitespace characters: when the input starts with that pattern the
whole match is removed (the `+` being greedy), otherwise the input is
returned unchanged. -/
def stripBearerChars : List Char → List Char
  | c0 :: c1 :: c2 :: c3 :: c4 :: c5 :: c6 :: rest =>
      if ([c0, c1, c2, c3, c4, c5].map Char.toLower = "bearer".toList)
          && isJsSpace c6 then
        List.dropWhile isJsSpace rest
      else c0 :: c1 :: c2 :: c3 :: c4 :: c5 :: c6 :: rest
  | cs => cs

/-- Embedding of `authorization.replace` with the anchored case-insensitive
Bearer pattern. -/
def stripBearer (s : String) : String :=
  String.mk (stripBearerChars s.toList)

/-- JavaScript `a || b` on `string | undefined` values: `a` when it is
defined and non-empty (truthy), otherwise `b`. -/
def jsOrStr (a b : Option String) : Option String :=
  match a with
  | some s => if s = "" then b else some s
  | none => b

/-- Embedding of the `providedKey` computation of the middleware:
`req.headers.authorization?.replace(...) || req.headers[the API-key header]
|| req.query.api_key`. -/
def extractCredential (auth xApiKey apiKeyQuery : Option String) : Option String :=
  jsOrStr (auth.map stripBearer) (jsOrStr xApiKey apiKeyQuery)

/-- Configuration seen by the middleware: the static `OBSIDIAN_API_KEY`
environment value (if set) and whether `createOAuthManagerFromEnv` produced
a manager. -/
structure GateEnv where
  apiKey : Option String
  oauthConfigured : Bool
  deriving DecidableEq, Repr

/-- Outcome of the middleware: `next()` (request admitted) or the
401 `Unauthorized - Invalid or missing credentials` JSON response. -/
inductive AuthResult where
  | next
  | unauthorized
  deriving DecidableEq, Repr

/-- JavaScript truthiness of `string | undefined`: defined and non-empty. -/
def keyTruthy : Option String → Bool
  | some k => decide (k ≠ "")
  | none => false

/-- The validation part of the middleware, given the already-extracted
`providedKey`: if the static key is configured (truthy) and matches,
`next()`; otherwise, if OAuth is configured, call `getToken()` (any error
being caught and logged) and compare against the returned token; otherwise
reject with 401.  The OAuth manager state threads through, so any cache
mutation `getToken` makes persists. -/
def validateCredential (env : GateEnv) (providedKey : Option String)
    (now : Int) (r : FetchResult) (st : OAuthMgrState) :
    AuthResult × OAuthMgrState :=
  if keyTruthy env.apiKey = true ∧ providedKey = env.apiKey then (.next, st)
  else if env.oauthConfigured then
    match getToken now r st with
    | (.ok validToken, st2) =>
        if providedKey = some validToken then (.next, st2)
        else (.unauthorized, st2)
    | (.error _, st2) => (.unauthorized, st2)
  else (.unauthorized, st)

/-- Embedding of the full `authenticateApiKey` middleware: extract the
credential from the three request locations, then validate it. -/
def authenticateApiKey (env : GateEnv) (auth xApiKey apiKeyQuery : Option String)
    (now : Int) (r : FetchResult) (st : OAuthMgrState) :
    AuthResult × OAuthMgrState :=
  validateCredential env (extractCredential auth xApiKey apiKeyQuery) now r st

/-- The state returned by the middleware is the state `getToken` leaves
when the OAuth branch runs, and the input state otherwise. -/
theorem validateCredential_snd (env : GateEnv) (pk : Option String)
    (now : Int) (r : FetchResult) (st : OAuthMgrState) :
    (validateCredential env pk now r st).2 =
      if keyTruthy env.apiKey = true ∧ pk = env.apiKey then st
      else if env.oauthConfigured then (getToken now r st).2
      else st := by
  unfold validateCredential
  by_cases h1 : keyTruthy env.apiKey = true ∧ pk = env.apiKey
  · simp [h1]
  · by_cases h2 : env.oauthConfigured
    · simp only [h1, if_false, h2, if_true]
      rcases hg : getToken now r st with ⟨res, st2⟩
      cases res with
      | ok v => by_cases h3 : pk = some v <;> simp [h3]
      | error m => simp
    · simp [h1, h2]

/-- C5: the middleware admits a credential equal to a configured (truthy)
static key whatever the OAuth configuration, token state or fetch outcome;
it rejects with 401 any present credential that equals neither the static
key nor the token `getToken()` would hand back; and it always rejects an
absent credential. -/
theorem authGate_policy (env : GateEnv) (a x q : Option String) (now : Int)
    (r : FetchResult) (st : OAuthMgrState) :
    (∀ k, env.apiKey = some k → k ≠ "" → extractCredential a x q = some k →
       (authenticateApiKey env a x q now r st).1 = AuthResult.next)
    ∧ (∀ cred, extractCredential a x q = some cred →
        (env.apiKey = none ∨ ∃ k, env.apiKey = some k ∧ cred ≠ k) →
        (∀ tok st2, getToken now r st = (.ok tok, st2) → cred ≠ tok) →
        (authenticateApiKey env a x q now r st).1 = AuthResult.unauthorized)
    ∧ (extractCredential a x q = none →
        (authenticateApiKey env a x q now r st).1 = AuthResult.unauthorized) := by
  unfold authenticateApiKey
  refine ⟨?_, ?_, ?_⟩
  · intro k hk hne hext
    rw [hext]
    unfold validateCredential
    have h1 : keyTruthy env.apiKey = true ∧ (some k : Option String) = env.apiKey := by
      rw [hk]; exact ⟨by simp [keyTruthy, hne], rfl⟩
    rw [if_pos h1]
  · intro cred hext hkey htok
    rw [hext]
    unfold validateCredential
    have h1 : ¬(keyTruthy env.apiKey = true ∧ (some cred : Option String) = env.apiKey) := by
      rcases hkey with h | ⟨k, hk, hne⟩
      · rw [h]; simp [keyTruthy]
      · rw [hk]; rintro ⟨-, h2⟩; exact hne (by injection h2)
    rw [if_neg h1]
    by_cases h2 : env.oauthConfigured
    · rw [if_pos h2]
      rcases hg : getToken now r st with ⟨res, st2⟩
      cases res with
      | ok tok =>
          have hne := htok tok st2 hg
          simp [hne]
      | error m => rfl
    · rw [if_neg h2]
  · intro hext
    rw [hext]
    unfold validateCredential
    have h1 : ¬(keyTruthy env.apiKey = true ∧ (none : Option String) = env.apiKey) := by
      cases hk : env.apiKey with
      | none => simp [keyTruthy]
      | some k => simp [hk]
    rw [if_neg h1]
    by_cases h2 : env.oauthConfigured
    · rw [if_pos h2]
      rcases hg : getToken now r st with ⟨res, st2⟩
      cases res with
      | ok tok => simp
      | error m => rfl
    · rw [if_neg h2]

/-- Witness for `authGate_policy`: with static key `K`, OAuth configured
but its endpoint failing, the header `Authorization: Bearer K` is
admitted. -/
theorem authGate_policy_witness :
    (authenticateApiKey ⟨some "K", true⟩ (some "Bearer K") none none 0
        (.httpError 500 "x") ⟨none, 0⟩).1 = AuthResult.next :=
  (authGate_policy ⟨some "K", true⟩ (some "Bearer K") none none 0
      (.httpError 500 "x") ⟨none, 0⟩).1 "K" rfl (by decide) (by decide)

/-- C6 counterexample: with `Authorization: "Bearer "` present (stripping
to the empty string) and the API-key header supplying `k2`, the extracted
credential is `k2`: the lower-precedence source is consulted although the
higher-precedence header is present, because `||` also skips empty
(falsy) strings. -/
theorem extract_credential_precedence_cex :
    extractCredential (some "Bearer ") (some "k2") none = some "k2"
    ∧ stripBearer "Bearer " = ""
    ∧ (some "k2" : Option String) ≠ some "" := by
  exact ⟨by decide, by decide, by decide⟩

/-- C6 amended: the credential is the first of (Bearer-stripped
authorization header, API-key header, query parameter) that is present and
non-empty; a lower-precedence source is consulted exactly when every
higher-precedence source is absent or evaluates to the empty string. -/
theorem extract_credential_precedence (auth xkey query : Option String) :
    (∀ a, auth = some a → stripBearer a ≠ "" →
       extractCredential auth xkey query = some (stripBearer a))
    ∧ ((auth = none ∨ ∃ a, auth = some a ∧ stripBearer a = "") →
        (∀ k, xkey = some k → k ≠ "" →
           extractCredential auth xkey query = some k)
        ∧ ((xkey = none ∨ xkey = some "") →
           extractCredential auth xkey query = query)) := by
  constructor
  · intro a ha hne
    simp [extractCredential, ha, jsOrStr, hne]
  · intro hauth
    have hfall : extractCredential auth xkey query = jsOrStr xkey query := by
      rcases hauth with h | ⟨a, ha, he⟩
      · simp [extractCredential, h, jsOrStr]
      · simp [extractCredential, ha, jsOrStr, he]
    constructor
    · intro k hk hne
      rw [hfall, hk]
      simp [jsOrStr, hne]
    · intro hx
      rw [hfall]
      rcases hx with h | h <;> simp [h, jsOrStr]

/-- Witness for `extract_credential_precedence`: a `Bearer abc` header
wins over a present API-key header. -/
theorem extract_credential_precedence_witness :
    extractCredential (some "Bearer abc") (some "k2") (some "k3") = some "abc" := by
  have h := (extract_credential_precedence (some "Bearer abc") (some "k2")
      (some "k3")).1 "Bearer abc" rfl (by decide)
  rw [h]
  decide

/-- C1 counterexample: a request validated while the cache is empty makes
the gate call `getToken()`, which performs a network fetch (the ghost
counter moves from 0 to 1) and stores the fresh token in the cache --
refuting the claim that inbound validation never fetches and never mutates
the cache. -/
theorem authGate_no_fetch_cex :
    (authenticateApiKey ⟨none, true⟩ (some "tok") none none 0
        (.ok "tok" 3600) ⟨none, 0⟩).2.fetchCount = 1
    ∧ (authenticateApiKey ⟨none, true⟩ (some "tok") none none 0
        (.ok "tok" 3600) ⟨none, 0⟩).2.cachedToken = some ⟨"tok", 3600000⟩ := by
  exact ⟨by decide, by decide⟩

/-- C1 amended: the gate validates against whatever `getToken()` returns:
while the cache holds a still-valid token this fetches nothing and leaves
the manager state untouched, but when OAuth is configured, the static-key
check did not succeed and the cache is empty or expired, the gate does
perform exactly one fetch, and on success the fresh token replaces the
cache. -/
theorem authGate_validation_effect (env : GateEnv) (a x q : Option String)
    (now : Int) (r : FetchResult) (st : OAuthMgrState) :
    (cacheValid now st = true →
       (authenticateApiKey env a x q now r st).2 = st)
    ∧ (env.oauthConfigured = true →
       ¬(keyTruthy env.apiKey = true ∧ extractCredential a x q = env.apiKey) →
       cacheValid now st = false →
       (authenticateApiKey env a x q now r st).2.fetchCount = st.fetchCount + 1
       ∧ ∀ t e, r = FetchResult.ok t e →
           (authenticateApiKey env a x q now r st).2.cachedToken =
             some ⟨t, now + e * 1000⟩) := by
  unfold authenticateApiKey
  constructor
  · intro hv
    rw [validateCredential_snd]
    obtain ⟨c, hc, hlt⟩ : ∃ c, st.cachedToken = some c ∧ now < c.expiresAt - 60000 := by
      unfold cacheValid at hv
      cases hc : st.cachedToken with
      | none => rw [hc] at hv; exact absurd hv (by simp)
      | some c => rw [hc] at hv; exact ⟨c, rfl, by simpa using hv⟩
    have hg : (getToken now r st).2 = st := by
      rw [getToken_of_cacheValid now r st c hc hlt]
    split
    · rfl
    · split
      · exact hg
      · rfl
  · intro ho hns hnv
    rw [validateCredential_snd, if_neg hns, if_pos ho,
        getToken_of_not_valid now r st hnv]
    refine ⟨wrapTokenFetch_fetchCount now r st, ?_⟩
    intro t e hr
    rw [hr, wrapTokenFetch_ok]

/-- Witness for `authGate_validation_effect`: with a valid cached token the
gate leaves the manager state untouched even for a rejected credential. -/
theorem authGate_validation_effect_witness :
    (authenticateApiKey ⟨some "K", true⟩ (some "z") none none 0
        (.httpError 500 "x") ⟨some ⟨"t", 100000⟩, 0⟩).2 =
      ⟨some ⟨"t", 100000⟩, 0⟩ :=
  (authGate_validation_effect ⟨some "K", true⟩ (some "z") none none 0
      (.httpError 500 "x") ⟨some ⟨"t", 100000⟩, 0⟩).1 (by decide)

/-! ## Outbound authentication resolution (shared/makeRequest.ts) -/

/-- Embedding of the `authToken` resolution at the top of `makeRequest`:
prefer OAuth when a manager is configured, fall back to the static
`OBSIDIAN_API_KEY` when `getToken()` throws, and error out when no method
remains.  The returned state is the manager state after any `getToken`
call. -/
def resolveAuthToken (oauthConfigured : Bool) (apiKey : Option String)
    (now : Int) (r : FetchResult) (st : OAuthMgrState) :
    Except String String × OAuthMgrState :=
  if oauthConfigured then
    match getToken now r st with
    | (.ok tok, st2) => (.ok tok, st2)
    | (.error _, st2) =>
        match apiKey with
        | some k =>
            if k = "" then
              (.error "OAuth token fetch failed and no OBSIDIAN_API_KEY fallback available", st2)
            else (.ok k, st2)
        | none =>
            (.error "OAuth token fetch failed and no OBSIDIAN_API_KEY fallback available", st2)
  else
    match apiKey with
    | some k =>
        if k = "" then
          (.error "Either OBSIDIAN_API_KEY or OAuth credentials must be provided", st)
        else (.ok k, st)
    | none =>
        (.error "Either OBSIDIAN_API_KEY or OAuth credentials must be provided", st)

/-- C9: when OAuth is configured and the token fetch fails, a configured
static key is used and the request proceeds (the token-fetch error is
non-fatal), while without a static key the operation fails; when OAuth is
not configured the static key is used directly, and its absence (or JS
falsiness) is an error. -/
theorem makeRequest_auth_fallback (apiKey : Option String) (now : Int)
    (r : FetchResult) (st : OAuthMgrState) :
    (∀ m st2, getToken now r st = (Except.error m, st2) →
       (∀ k, apiKey = some k → k ≠ "" →
          resolveAuthToken true apiKey now r st = (.ok k, st2))
       ∧ ((apiKey = none ∨ apiKey = some "") →
           (resolveAuthToken true apiKey now r st).1 =
             .error "OAuth token fetch failed and no OBSIDIAN_API_KEY fallback available"))
    ∧ (∀ k, apiKey = some k → k ≠ "" →
        resolveAuthToken false apiKey now r st = (.ok k, st))
    ∧ ((apiKey = none ∨ apiKey = some "") →
        (resolveAuthToken false apiKey now r st).1 =
          .error "Either OBSIDIAN_API_KEY or OAuth credentials must be provided") := by
  refine ⟨?_, ?_, ?_⟩
  · intro m st2 hg
    constructor
    · intro k hk hne
      simp [resolveAuthToken, hg, hk, hne]
    · rintro (h | h) <;> simp [resolveAuthToken, hg, h]
  · intro k hk hne
    simp [resolveAuthToken, hk, hne]
  · rintro (h | h) <;> simp [resolveAuthToken, h]

/-- Witness for `makeRequest_auth_fallback`: with the token endpoint down
and a static key configured, the request proceeds with the static key. -/
theorem makeRequest_auth_fallback_witness :
    resolveAuthToken true (some "K") 0 (.networkError "refused") ⟨none, 0⟩ =
      (.ok "K", ⟨none, 1⟩) :=
  ((makeRequest_auth_fallback (some "K") 0 (.networkError "refused") ⟨none, 0⟩).1
      ("Failed to fetch OAuth token: " ++ "refused") ⟨none, 1⟩ rfl).1
    "K" rfl (by decide)

/-! ## Session registry and stream lifecycle (ObsidianMcpServer,
features/core) -/

/-- An SSE transport handle as the registry sees it: it exposes the session
id it was created with. -/
structure Transport where
  sessionId : String
  deriving DecidableEq, Repr

/-- Lookup in a JavaScript `Map` (`Map.get`). -/
def mapGet {α : Type} (m : List (String × α)) (k : String) : Option α :=
  match m with
  | [] => none
  | (k2, v) :: rest => if k2 = k then some v else mapGet rest k

/-- Insertion into a JavaScript `Map` (`Map.set`): replace the entry with
this key if one exists, otherwise append. -/
def mapSet {α : Type} (m : List (String × α)) (k : String) (v : α) :
    List (String × α) :=
  match m with
  | [] => [(k, v)]
  | (k2, v2) :: rest =>
      if k2 = k then (k, v) :: rest else (k2, v2) :: mapSet rest k v

/-- Removal from a JavaScript `Map` (`Map.delete`). -/
def mapDelete {α : Type} (m : List (String × α)) (k : String) :
    List (String × α) :=
  match m with
  | [] => []
  | (k2, v2) :: rest =>
      if k2 = k then rest else (k2, v2) :: mapDelete rest k

/-- Modelled from the spec: the session id generator of the external
`SSEServerTransport` (the `@modelcontextprotocol` SDK, not part of this
repository).  The spec calls the id a unique string generated at
stream-open time that `open` allocates fresh; we realise that by an
injective encoding of a per-server counter into non-empty
strings. -/
def genId (n : Nat) : String :=
  String.mk (List.replicate (n + 1) 's')

/-- State of an `ObsidianMcpServer`: the `transports` map plus the counter
feeding the fresh-id generator. -/
structure ServerState where
  transports : List (String × Transport)
  nextId : Nat
  deriving DecidableEq, Repr

/-- Embedding of `handleSSEConnection`: create the transport (with its
fresh session id), register it with `Map.set`, then connect it to the
protocol core; when connecting fails (`connectOk = false`, the `catch`
branch), delete the just-registered entry and re-throw. -/
def handleSSEConnection (st : ServerState) (connectOk : Bool) :
    Except Unit String × ServerState :=
  let sessionId := genId st.nextId
  let transport : Transport := ⟨sessionId⟩
  let m1 := mapSet st.transports sessionId transport
  if connectOk then
    (.ok sessionId, ⟨m1, st.nextId + 1⟩)
  else
    (.error (), ⟨mapDelete m1 sessionId, st.nextId + 1⟩)

/-- Embedding of the `transport.onclose` / `transport.onerror` callbacks
and explicit shutdown: `this.transports.delete(sessionId)`. -/
def closeSession (st : ServerState) (id : String) : ServerState :=
  ⟨mapDelete st.transports id, st.nextId⟩

/-- The HTTP response produced by `handlePostMessage`, including whether
the message was forwarded (and if so to which transport). -/
inductive PostOutcome where
  | badRequest (err : String)
  | notFound (err : String)
  | forwarded (id : String)
  | internalError (err : String)
  deriving DecidableEq, Repr

/-- Embedding of `handlePostMessage`: a JS-falsy (`null` or empty)
`sessionId` query parameter yields 400, an unknown id 404, otherwise the
body is read and forwarded to the transport (`bodyOk = false` standing for
a body-read/parse/forward failure, caught as a 500). -/
def handlePostMessage (st : ServerState) (sessionIdParam : Option String)
    (bodyOk : Bool) : PostOutcome :=
  match sessionIdParam with
  | none => .badRequest "Missing sessionId parameter"
  | some sid =>
      if sid = "" then .badRequest "Missing sessionId parameter"
      else
        match mapGet st.transports sid with
        | none => .notFound "Session not found"
        | some t =>
            if bodyOk then .forwarded t.sessionId
            else .internalError "Internal server error"

/-- One externally observable event against the server. -/
inductive Event where
  | openStream (connectOk : Bool)
  | closeStream (id : String)
  | postMessage (sid : Option String) (bodyOk : Bool)
  deriving DecidableEq, Repr

/-- State transition for one event (`handlePostMessage` never mutates the
registry). -/
def step (st : ServerState) : Event → ServerState
  | .openStream connectOk => (handleSSEConnection st connectOk).2
  | .closeStream id => closeSession st id
  | .postMessage _ _ => st

/-- Run a sequence of events. -/
def run (st : ServerState) (evs : List Event) : ServerState :=
  evs.foldl step st

/-- The server as constructed: empty transports map. -/
def initState : ServerState := ⟨[], 0⟩

/-- States the server can actually be in. -/
def Reachable (st : ServerState) : Prop :=
  ∃ evs, run initState evs = st

/-- Registry invariant: every registered id was produced by the generator
at an index below the counter, and ids are pairwise distinct. -/
def GoodState (st : ServerState) : Prop :=
  (∀ k ∈ st.transports.map Prod.fst, ∃ m, m < st.nextId ∧ k = genId m)
  ∧ (st.transports.map Prod.fst).Nodup

theorem genId_injective {a b : Nat} (h : genId a = genId b) : a = b := by
  have h2 := congrArg String.data h
  simp only [genId] at h2
  have h3 := congrArg List.length h2
  simp only [List.length_replicate] at h3
  omega

theorem genId_ne_empty (n : Nat) : genId n ≠ "" := by
  intro h
  have h2 := congrArg String.data h
  simp only [genId] at h2
  have h3 := congrArg List.length h2
  simp [List.length_replicate] at h3

theorem mapGet_eq_none {α : Type} (m : List (String × α)) (k : String) :
    mapGet m k = none ↔ k ∉ m.map Prod.fst := by
  induction m with
  | nil => simp [mapGet]
  | cons p rest ih =>
      rcases p with ⟨k2, v⟩
      by_cases h : k2 = k
      · subst h
        simp [mapGet]
      · simp [mapGet, h, ih, Ne.symm h]

theorem mapSet_of_fresh {α : Type} (m : List (String × α)) (k : String) (v : α)
    (h : mapGet m k = none) : mapSet m k v = m ++ [(k, v)] := by
  induction m with
  | nil => simp [mapSet]
  | cons p rest ih =>
      rcases p with ⟨k2, v2⟩
      by_cases hk : k2 = k
      · subst hk; simp [mapGet] at h
      · simp only [mapGet, hk, if_false] at h
        simp [mapSet, hk, ih h]

theorem mapDelete_append_single {α : Type} (m : List (String × α)) (k : String)
    (v : α) (h : mapGet m k = none) : mapDelete (m ++ [(k, v)]) k = m := by
  induction m with
  | nil => simp [mapDelete]
  | cons p rest ih =>
      rcases p with ⟨k2, v2⟩
      by_cases hk : k2 = k
      · subst hk; simp [mapGet] at h
      · simp only [mapGet, hk, if_false] at h
        simp [mapDelete, hk, ih h]

theorem mapDelete_mapSet_cancel {α : Type} (m : List (String × α)) (k : String)
    (v : α) (h : mapGet m k = none) : mapDelete (mapSet m k v) k = m := by
  rw [mapSet_of_fresh m k v h, mapDelete_append_single m k v h]

theorem mapDelete_mem_keys {α : Type} (m : List (String × α)) (k i : String)
    (h : i ∈ (mapDelete m k).map Prod.fst) : i ∈ m.map Prod.fst := by
  induction m with
  | nil => simp only [mapDelete] at h; exact h
  | cons p rest ih =>
      rcases p with ⟨k2, v2⟩
      by_cases hk : k2 = k
      · simp only [mapDelete, hk, if_true] at h
        simp [h]
      · simp only [mapDelete, hk, if_false, List.map_cons, List.mem_cons] at h
        rcases h with h | h
        · simp [h]
        · simp [ih h]

theorem mapDelete_keys_nodup {α : Type} (m : List (String × α)) (k : String)
    (h : (m.map Prod.fst).Nodup) : ((mapDelete m k).map Prod.fst).Nodup := by
  induction m with
  | nil => simp [mapDelete]
  | cons p rest ih =>
      rcases p with ⟨k2, v2⟩
      simp only [List.map_cons, List.nodup_cons] at h
      by_cases hk : k2 = k
      · simpa [mapDelete, hk] using h.2
      · simp only [mapDelete, hk, if_false, List.map_cons, List.nodup_cons]
        exact ⟨fun hmem => h.1 (mapDelete_mem_keys rest k k2 hmem), ih h.2⟩

theorem mapGet_mapDelete_self {α : Type} (m : List (String × α)) (k : String)
    (h : (m.map Prod.fst).Nodup) : mapGet (mapDelete m k) k = none := by
  induction m with
  | nil => simp [mapDelete, mapGet]
  | cons p rest ih =>
      rcases p with ⟨k2, v2⟩
      simp only [List.map_cons, List.nodup_cons] at h
      by_cases hk : k2 = k
      · subst hk
        simp only [mapDelete, if_true]
        exact (mapGet_eq_none rest k2).mpr h.1
      · simp only [mapDelete, hk, if_false, mapGet]
        simp [hk, ih h.2]

theorem mapGet_mapDelete_of_none {α : Type} (m : List (String × α)) (k i : String)
    (h : mapGet m i = none) : mapGet (mapDelete m k) i = none := by
  rw [mapGet_eq_none] at h ⊢
  exact fun hmem => h (mapDelete_mem_keys m k i hmem)

theorem mapGet_mapSet_ne {α : Type} (m : List (String × α)) (k i : String) (v : α)
    (h : k ≠ i) : mapGet (mapSet m k v) i = mapGet m i := by
  induction m with
  | nil => simp [mapSet, mapGet, h]
  | cons p rest ih =>
      rcases p with ⟨k2, v2⟩
      by_cases hk : k2 = k
      · subst hk
        simp [mapSet, mapGet, h]
      · simp [mapSet, hk, mapGet, ih]

theorem mapDelete_of_none {α : Type} (m : List (String × α)) (k : String)
    (h : mapGet m k = none) : mapDelete m k = m := by
  induction m with
  | nil => rfl
  | cons p rest ih =>
      rcases p with ⟨k2, v2⟩
      by_cases hk : k2 = k
      · subst hk; simp [mapGet] at h
      · simp only [mapGet, hk, if_false] at h
        simp [mapDelete, hk, ih h]

theorem goodState_fresh (st : ServerState) (h : GoodState st) :
    mapGet st.transports (genId st.nextId) = none := by
  rw [mapGet_eq_none]
  intro hmem
  obtain ⟨m, hm, he⟩ := h.1 _ hmem
  have := genId_injective he
  omega

theorem handleSSE_true (st : ServerState)
    (h : mapGet st.transports (genId st.nextId) = none) :
    handleSSEConnection st true =
      (.ok (genId st.nextId),
        ⟨st.transports ++ [(genId st.nextId, ⟨genId st.nextId⟩)], st.nextId + 1⟩) := by
  unfold handleSSEConnection
  simp [mapSet_of_fresh _ _ _ h]

theorem handleSSE_false (st : ServerState)
    (h : mapGet st.transports (genId st.nextId) = none) :
    handleSSEConnection st false = (.error (), ⟨st.transports, st.nextId + 1⟩) := by
  unfold handleSSEConnection
  simp [mapDelete_mapSet_cancel _ _ _ h]

theorem goodState_init : GoodState initState := by
  constructor <;> simp [initState, GoodState]

theorem goodState_step (st : ServerState) (e : Event) (h : GoodState st) :
    GoodState (step st e) := by
  cases e with
  | postMessage sid b => exact h
  | closeStream id =>
      refine ⟨?_, mapDelete_keys_nodup _ _ h.2⟩
      intro k hk
      obtain ⟨m, hm, he⟩ := h.1 k (mapDelete_mem_keys _ _ _ hk)
      exact ⟨m, hm, he⟩
  | openStream connectOk =>
      have hfresh := goodState_fresh st h
      cases connectOk with
      | false =>
          have hs : step st (.openStream false) = ⟨st.transports, st.nextId + 1⟩ := by
            simp [step, handleSSE_false st hfresh]
          rw [hs]
          refine ⟨?_, h.2⟩
          intro k hk
          obtain ⟨m, hm, he⟩ := h.1 k hk
          exact ⟨m, by show m < st.nextId + 1; omega, he⟩
      | true =>
          have hs : step st (.openStream true) =
              ⟨st.transports ++ [(genId st.nextId, ⟨genId st.nextId⟩)], st.nextId + 1⟩ := by
            simp [step, handleSSE_true st hfresh]
          rw [hs]
          constructor
          · intro k hk
            simp only [List.map_append, List.map_cons, List.map_nil,
              List.mem_append, List.mem_singleton] at hk
            rcases hk with hk | hk
            · obtain ⟨m, hm, he⟩ := h.1 k hk
              exact ⟨m, by show m < st.nextId + 1; omega, he⟩
            · exact ⟨st.nextId, by show st.nextId < st.nextId + 1; omega, hk⟩
          · simp only [List.map_append, List.map_cons, List.map_nil]
            rw [List.nodup_append]
            refine ⟨h.2, List.nodup_singleton _, ?_⟩
            intro a ha hb
            simp only [List.mem_singleton] at hb
            subst hb
            exact (mapGet_eq_none _ _).mp hfresh ha

theorem goodState_run (evs : List Event) (st : ServerState) (h : GoodState st) :
    GoodState (run st evs) := by
  induction evs generalizing st with
  | nil => exact h
  | cons e rest ih => exact ih (step st e) (goodState_step st e h)

theorem reachable_goodState (st : ServerState) (h : Reachable st) : GoodState st := by
  obtain ⟨evs, he⟩ := h
  rw [← he]
  exact goodState_run evs initState goodState_init

/-- C2: in every reachable server state, the session id an `open` returns
is not registered at that moment, registration appends a new entry without
replacing any live transport, and after registration the registered ids
are still pairwise distinct (at most one live session per id). -/
theorem open_session_unique (st : ServerState) (h : Reachable st) :
    mapGet st.transports (genId st.nextId) = none
    ∧ (handleSSEConnection st true).1 = Except.ok (genId st.nextId)
    ∧ (handleSSEConnection st true).2.transports =
        st.transports ++ [(genId st.nextId, ⟨genId st.nextId⟩)]
    ∧ ((handleSSEConnection st true).2.transports.map Prod.fst).Nodup := by
  have hg := reachable_goodState st h
  have hfresh := goodState_fresh st hg
  have hs := handleSSE_true st hfresh
  refine ⟨hfresh, by rw [hs], by rw [hs], ?_⟩
  have := (goodState_step st (.openStream true) hg).2
  simpa [step, hs] using this

/-- Witness for `open_session_unique`: the very first `open` on a fresh
server returns the first generated id. -/
theorem open_session_unique_witness :
    (handleSSEConnection initState true).1 = Except.ok (genId 0) :=
  (open_session_unique initState ⟨[], rfl⟩).2.1

/-- C10: in every reachable server state, an `open` whose `connect` step
fails removes the just-registered entry again before the error propagates:
the registry afterwards equals the registry before, and in particular no
session is registered under the allocated id. -/
theorem open_failure_atomic (st : ServerState) (h : Reachable st) :
    (handleSSEConnection st false).1 = Except.error ()
    ∧ (handleSSEConnection st false).2.transports = st.transports
    ∧ mapGet (handleSSEConnection st false).2.transports (genId st.nextId) = none := by
  have hg := reachable_goodState st h
  have hfresh := goodState_fresh st hg
  have hs := handleSSE_false st hfresh
  exact ⟨by rw [hs], by rw [hs], by rw [hs]; exact hfresh⟩

/-- Witness for `open_failure_atomic`: a failed first `open` leaves the
registry empty. -/
theorem open_failure_atomic_witness :
    (handleSSEConnection initState false).2.transports = initState.transports :=
  (open_failure_atomic initState ⟨[], rfl⟩).2.1

/-- C8: once a registered session is closed (stream closure, stream error
and explicit shutdown all run the same `transports.delete`), every
subsequent POST for that id -- after any further sequence of server events,
including new opens -- answers 404 `Session not found`, and closing the
already-closed session again is a no-op on the server state. -/
theorem close_then_route_fails (st : ServerState) (id : String) (h : Reachable st)
    (hmem : id ∈ st.transports.map Prod.fst) :
    (∀ evs b, handlePostMessage (run (closeSession st id) evs) (some id) b =
       PostOutcome.notFound "Session not found")
    ∧ closeSession (closeSession st id) id = closeSession st id := by
  have hg := reachable_goodState st h
  obtain ⟨m, hm, hid⟩ := hg.1 id hmem
  have hne : id ≠ "" := by rw [hid]; exact genId_ne_empty m
  -- the key invariant carried below the close
  let P : ServerState → Prop := fun s =>
    GoodState s ∧ mapGet s.transports id = none ∧ m < s.nextId
  have hstep : ∀ (s : ServerState) (e : Event), P s → P (step s e) := by
    intro s e hs
    obtain ⟨hsg, hsnone, hsm⟩ := hs
    refine ⟨goodState_step s e hsg, ?_, ?_⟩
    · cases e with
      | postMessage sid b => exact hsnone
      | closeStream k => exact mapGet_mapDelete_of_none _ _ _ hsnone
      | openStream connectOk =>
          have hfresh := goodState_fresh s hsg
          have hneq : genId s.nextId ≠ id := by
            intro hcontra
            rw [hid] at hcontra
            have := genId_injective hcontra
            omega
          cases connectOk with
          | false =>
              have hs2 := handleSSE_false s hfresh
              show mapGet (handleSSEConnection s false).2.transports id = none
              rw [hs2]
              exact hsnone
          | true =>
              have hs2 := handleSSE_true s hfresh
              show mapGet (handleSSEConnection s true).2.transports id = none
              rw [hs2]
              show mapGet (s.transports ++ [(genId s.nextId, ⟨genId s.nextId⟩)]) id = none
              rw [← mapSet_of_fresh _ _ _ hfresh]
              rw [mapGet_mapSet_ne _ _ _ _ hneq]
              exact hsnone
    · cases e with
      | postMessage sid b => exact hsm
      | closeStream k => exact hsm
      | openStream connectOk =>
          cases connectOk with
          | false =>
              show m < (handleSSEConnection s false).2.nextId
              unfold handleSSEConnection
              simp only [Bool.false_eq_true, if_false]
              show m < s.nextId + 1
              omega
          | true =>
              show m < (handleSSEConnection s true).2.nextId
              unfold handleSSEConnection
              simp only [if_true]
              show m < s.nextId + 1
              omega
  have hrun : ∀ (evs : List Event) (s : ServerState), P s → P (run s evs) := by
    intro evs
    induction evs with
    | nil => intro s hs; exact hs
    | cons e rest ih => intro s hs; exact ih (step s e) (hstep s e hs)
  have hclosed : P (closeSession st id) :=
    ⟨goodState_step st (.closeStream id) hg,
      mapGet_mapDelete_self _ _ hg.2, hm⟩
  constructor
  · intro evs b
    obtain ⟨-, hnone, -⟩ := hrun evs (closeSession st id) hclosed
    simp [handlePostMessage, hne, hnone]
  · have hnone := mapGet_mapDelete_self st.transports id hg.2
    simp [closeSession, mapDelete_of_none _ _ hnone]

/-- Witness for `close_then_route_fails`: open one stream, close its
session, then POST to that session id: 404. -/
theorem close_then_route_fails_witness :
    handlePostMessage
        (run (closeSession (run initState [Event.openStream true]) (genId 0)) [])
        (some (genId 0)) true = PostOutcome.notFound "Session not found" :=
  (close_then_route_fails (run initState [Event.openStream true]) (genId 0)
      ⟨[Event.openStream true], rfl⟩ (by decide)).1 [] true

/-- C7 counterexample: the URL `?sessionId=` carries a present but empty
`sessionId`; no session is registered under `""`, yet the handler answers
400 (because `!sessionId` treats the empty string as missing), not the 404
the claim requires for a present-but-unknown id. -/
theorem post_message_empty_sid_cex :
    handlePostMessage initState (some "") true =
      PostOutcome.badRequest "Missing sessionId parameter"
    ∧ mapGet initState.transports "" = none
    ∧ PostOutcome.badRequest "Missing sessionId parameter" ≠
        PostOutcome.notFound "Session not found" := by
  exact ⟨rfl, rfl, by decide⟩

/-- C7 amended: an absent or empty `sessionId` parameter yields 400 with an
error body mentioning `sessionId`; a present non-empty id with no
registered session yields 404 `Session not found`; in these failure cases
nothing is forwarded to any transport. -/
theorem post_message_errors (st : ServerState) (sid : String) (b : Bool) :
    (handlePostMessage st none b =
        PostOutcome.badRequest "Missing sessionId parameter"
      ∧ (∃ u v, "Missing sessionId parameter" = u ++ "sessionId" ++ v)
      ∧ ∀ i, handlePostMessage st none b ≠ PostOutcome.forwarded i)
    ∧ handlePostMessage st (some "") b =
        PostOutcome.badRequest "Missing sessionId parameter"
    ∧ (sid ≠ "" → mapGet st.transports sid = none →
        handlePostMessage st (some sid) b = PostOutcome.notFound "Session not found"
        ∧ ∀ i, handlePostMessage st (some sid) b ≠ PostOutcome.forwarded i) := by
  refine ⟨⟨rfl, ⟨"Missing ", " parameter", rfl⟩, by simp [handlePostMessage]⟩,
    rfl, ?_⟩
  intro hne hnone
  constructor
  · simp [handlePostMessage, hne, hnone]
  · intro i
    simp [handlePostMessage, hne, hnone]

/-- Witness for `post_message_errors`: a POST with an unknown session id on
a fresh server answers 404. -/
theorem post_message_errors_witness :
    handlePostMessage initState (some "bogus") true =
      PostOutcome.notFound "Session not found" :=
  ((post_message_errors initState "bogus" true).2.2 (by decide) rfl).1

end ObsidianMcp
